import Mathlib

set_option maxHeartbeats 1000000

/-!
Verification of the sops secret updater (src/lib/sops-secret.secret-updater.ts).

The updater is a straight-line AWS custom-resource handler.  We embed it as
pure functions over an explicit remote-store state, recording every remote
call (together with its response) in a trace.  The remote secret store
itself is an external collaborator; its per-call semantics are modelled
from the spec (section 6), deterministically, for the single secret that an
invocation addresses.  An additional fault-injection list in the
environment lets a theorem make any individual remote call fail, which is
how the error-propagation claims are stated.
-/

/-- The content format of the encrypted file (TS union written inline as
SecretType in the source interface ResourceProperties). -/
inductive SecretContentType where
  | json
  | yaml
  | dotenv
  | txt
deriving DecidableEq

/-- One entry of the parsed SecretReplicaRegions JSON payload
(TS inline object type with fields region and kmsKeyId). -/
structure ReplicaRegionProp where
  region : String
  kmsKeyId : Option String
deriving DecidableEq

/-- TS interface ResourceProperties.  The structured string properties
(SecretTags, SecretReplicaRegions) are represented by their parsed values;
the source parses the JSON strings with JSON.parse before use, and the
producing side serializes exactly these shapes. -/
structure ResourceProperties where
  SecretName : String
  SecretType : SecretContentType
  S3BucketName : String
  S3ObjectKey : String
  SecretKmsKeyArn : Option String
  SecretDescription : Option String
  SecretTags : Option (List (String × String))
  SecretPolicy : Option String
  SecretReplicaRegions : Option (List ReplicaRegionProp)
deriving DecidableEq

/-- Modelled from the spec: the observable attributes of the one remote
secret an invocation addresses (RemoteSecretState of section 3 plus the
stored value, storage key and resource policy of section 6). -/
structure RemoteSecret where
  secretString : String
  description : Option String
  kmsKeyId : Option String
  tags : List (String × String)
  policy : Option String
  replicaRegions : List ReplicaRegionProp
deriving DecidableEq

/-- Modelled from the spec: the remote store restricted to the single
secret named by the invocation; none means the secret does not exist. -/
def Store : Type := Option RemoteSecret

instance : DecidableEq Store := by
  unfold Store
  infer_instance

/-- Errors a remote call can fail with: the distinguished resource-not-found
condition (ResourceNotFoundException) and a generic failure. -/
inductive AwsErr where
  | resourceNotFound
  | otherFailure (msg : String)
deriving DecidableEq

/-- The remote calls the updater issues, with their arguments as sent. -/
inductive Call where
  | s3GetObject (bucket : String) (key : String)
  | describeSecret (secretId : String)
  | createSecret (name : String) (description : Option String)
      (secretString : String) (kmsKeyId : Option String)
  | updateSecret (secretId : String) (description : Option String)
      (secretString : String) (kmsKeyId : Option String)
  | untagResource (secretId : String) (tagKeys : List String)
  | tagResource (secretId : String) (tags : List (String × String))
  | putResourcePolicy (secretId : String) (resourcePolicy : String)
  | deleteResourcePolicy (secretId : String)
  | removeRegionsFromReplication (secretId : String) (removeReplicaRegions : List String)
  | replicateSecretToRegions (secretId : String) (addReplicaRegions : List ReplicaRegionProp)
  | deleteSecret (secretId : String) (forceDeleteWithoutRecovery : Bool)
deriving DecidableEq

/-- A trace entry: a call together with the response it received
(none = success). -/
abbrev TraceEntry : Type := Call × Option AwsErr

/-- Errors the updater itself can surface (thrown JS Error values). -/
inductive UpdaterErr where
  | aws (e : AwsErr)
  | sopsFailed (stderr : String)
  | execFailed (msg : String)
  | failed
deriving DecidableEq

/-- Modelled from the spec: bulk tag application (TagResource) overwrites
the values of keys that are already present and adds the new keys. -/
def applyTags (existing newOnes : List (String × String)) : List (String × String) :=
  existing.filter (fun t => ! (newOnes.map Prod.fst).contains t.1) ++ newOnes

/-- Modelled from the spec: bulk tag removal (UntagResource) removes the
entries whose key is listed. -/
def removeTagKeys (existing : List (String × String)) (keys : List String) :
    List (String × String) :=
  existing.filter (fun t => ! keys.contains t.1)

/-- Modelled from the spec: adding replica regions is idempotent for
regions already present (a no-op for them) and appends the new ones. -/
def addReplicaRegions (existing newOnes : List ReplicaRegionProp) : List ReplicaRegionProp :=
  existing ++ newOnes.filter (fun r => ! (existing.map (·.region)).contains r.region)

/-- Modelled from the spec: removing replica regions drops the entries
whose region name is listed. -/
def removeReplicaRegionNames (existing : List ReplicaRegionProp) (names : List String) :
    List ReplicaRegionProp :=
  existing.filter (fun r => ! names.contains r.region)

/-- Modelled from the spec: deterministic semantics of one remote call
against the store (section 6).  Every secrets-manager call fails with
resourceNotFound when the secret is absent; deleting the resource policy
also answers resourceNotFound when no policy is attached; creating an
existing secret is a generic failure. -/
def detCall : Call → Store → Except AwsErr Store
  | Call.s3GetObject _ _, st => Except.ok st
  | Call.describeSecret _, st =>
    match st with
    | none => Except.error AwsErr.resourceNotFound
    | some _ => Except.ok st
  | Call.createSecret _ d v k, st =>
    match st with
    | some _ => Except.error (AwsErr.otherFailure "ResourceExistsException")
    | none => Except.ok (some ⟨v, d, k, [], none, []⟩)
  | Call.updateSecret _ d v k, st =>
    match st with
    | none => Except.error AwsErr.resourceNotFound
    | some rs =>
      Except.ok (some { rs with
        secretString := v
        description := match d with | some x => some x | none => rs.description
        kmsKeyId := match k with | some x => some x | none => rs.kmsKeyId })
  | Call.untagResource _ keys, st =>
    match st with
    | none => Except.error AwsErr.resourceNotFound
    | some rs => Except.ok (some { rs with tags := removeTagKeys rs.tags keys })
  | Call.tagResource _ ts, st =>
    match st with
    | none => Except.error AwsErr.resourceNotFound
    | some rs => Except.ok (some { rs with tags := applyTags rs.tags ts })
  | Call.putResourcePolicy _ p, st =>
    match st with
    | none => Except.error AwsErr.resourceNotFound
    | some rs => Except.ok (some { rs with policy := some p })
  | Call.deleteResourcePolicy _, st =>
    match st with
    | none => Except.error AwsErr.resourceNotFound
    | some rs =>
      match rs.policy with
      | none => Except.error AwsErr.resourceNotFound
      | some _ => Except.ok (some { rs with policy := none })
  | Call.removeRegionsFromReplication _ names, st =>
    match st with
    | none => Except.error AwsErr.resourceNotFound
    | some rs => Except.ok (some { rs with replicaRegions := removeReplicaRegionNames rs.replicaRegions names })
  | Call.replicateSecretToRegions _ regs, st =>
    match st with
    | none => Except.error AwsErr.resourceNotFound
    | some rs => Except.ok (some { rs with replicaRegions := addReplicaRegions rs.replicaRegions regs })
  | Call.deleteSecret _ _, st =>
    match st with
    | none => Except.error AwsErr.resourceNotFound
    | some _ => Except.ok none

/-- The environment of one invocation: the S3 object body, the result of
running the sops child process (stdout and stderr, or a failure of the exec
call itself), and a fault-injection list that makes the n-th
secrets-manager call fail with the given error instead of its
deterministic behaviour. -/
structure Env where
  s3 : String → String → Except AwsErr String
  sops : String → SecretContentType → Except String (String × String)
  faults : List (Nat × AwsErr)

/-- Look up an injected fault for the call with the given index. -/
def lookupFault (faults : List (Nat × AwsErr)) (n : Nat) : Option AwsErr :=
  (faults.find? (fun p => p.1 == n)).map Prod.snd

/-- Issue one secrets-manager call: consult fault injection, otherwise run
the deterministic store semantics; return the response, the new store, the
next call index and the emitted trace entry. -/
def callPhase (env : Env) (c : Call) (st : Store) (n : Nat) :
    Option AwsErr × Store × Nat × List TraceEntry :=
  match lookupFault env.faults n with
  | some e => (some e, st, n + 1, [(c, some e)])
  | none =>
    match detCall c st with
    | Except.ok st' => (none, st', n + 1, [(c, none)])
    | Except.error e => (some e, st, n + 1, [(c, some e)])

/-- The outcome of one reconciliation step: an error (none = continue),
the store, the next call index and the trace entries emitted so far. -/
structure PhaseOut where
  err : Option UpdaterErr
  store : Store
  counter : Nat
  emitted : List TraceEntry
deriving DecidableEq

/-- A step that issues no call. -/
def skipPhase (st : Store) (n : Nat) : PhaseOut :=
  ⟨none, st, n, []⟩

/-- Lift a raw call result into a step outcome; any call error is thrown
(propagated) as an AWS failure. -/
def toPhase (r : Option AwsErr × Store × Nat × List TraceEntry) : PhaseOut :=
  ⟨r.1.map UpdaterErr.aws, r.2.1, r.2.2.1, r.2.2.2⟩

/-- Sequence two steps: the second runs only when the first did not throw;
emitted traces concatenate. -/
def pThen (a : PhaseOut) (f : Store → Nat → PhaseOut) : PhaseOut :=
  match a.err with
  | some _ => a
  | none =>
    let b := f a.store a.counter
    ⟨b.err, b.store, b.counter, a.emitted ++ b.emitted⟩

/-- TS decodeSops: run sops over the fetched content; a rejected exec call
propagates, and any non-empty stderr is thrown as a failure
(the source checks the stderr string for truthiness). -/
def decodeSops (env : Env) (content : String) (inputType : SecretContentType) :
    Except UpdaterErr String :=
  match env.sops content inputType with
  | Except.error msg => Except.error (UpdaterErr.execFailed msg)
  | Except.ok (stdout, stderr) =>
    if stderr = "" then Except.ok stdout else Except.error (UpdaterErr.sopsFailed stderr)

/-- JavaScript String.prototype.trim removes WhiteSpace and LineTerminator
code points from both ends; this is that character class. -/
def isJsWhitespace (c : Char) : Bool :=
  [0x9, 0xa, 0xb, 0xc, 0xd, 0x20, 0xa0, 0x1680,
   0x2000, 0x2001, 0x2002, 0x2003, 0x2004, 0x2005, 0x2006, 0x2007,
   0x2008, 0x2009, 0x200a, 0x2028, 0x2029, 0x202f, 0x205f, 0x3000,
   0xfeff].contains c.toNat

/-- JavaScript String.prototype.trim on a character list. -/
def jsTrimList (l : List Char) : List Char :=
  ((l.dropWhile isJsWhitespace).reverse.dropWhile isJsWhitespace).reverse

/-- JavaScript String.prototype.trim. -/
def jsTrim (s : String) : String :=
  ⟨jsTrimList s.data⟩

/-- TS upsertSecret: parse tags from props (JSON.parse of SecretTags, or
the empty list when the property is absent). -/
def newTags (props : ResourceProperties) : List (String × String) :=
  props.SecretTags.getD []

/-- TS upsertSecret: parse replica regions from props (name kept with the
source typo). -/
def newReplicatRegions (props : ResourceProperties) : List ReplicaRegionProp :=
  props.SecretReplicaRegions.getD []

/-- The result of the describe step of upsertSecret: secretExists,
existingTags and existingReplicaRegions as the source binds them, plus the
threaded store, call index and trace. -/
structure DescribeOut where
  err : Option UpdaterErr
  secretExists : Bool
  existingTags : Option (List (String × String))
  existingReplicaRegions : Option (List String)
  store : Store
  counter : Nat
  emitted : List TraceEntry

/-- TS upsertSecret lines 100-119: DescribeSecret, tolerating
ResourceNotFoundException (secretExists := false) and rethrowing anything
else. -/
def describePhase (env : Env) (props : ResourceProperties) (st : Store) (n : Nat) :
    DescribeOut :=
  let r := callPhase env (Call.describeSecret props.SecretName) st n
  match r.1 with
  | none =>
    match r.2.1 with
    | some rs =>
      ⟨none, true, some rs.tags, some (rs.replicaRegions.map (·.region)), r.2.1, r.2.2.1, r.2.2.2⟩
    | none => ⟨none, true, none, none, r.2.1, r.2.2.1, r.2.2.2⟩
  | some AwsErr.resourceNotFound => ⟨none, false, none, none, r.2.1, r.2.2.1, r.2.2.2⟩
  | some e => ⟨some (UpdaterErr.aws e), false, none, none, r.2.1, r.2.2.1, r.2.2.2⟩

/-- TS upsertSecret lines 121-140: UpdateSecret when the secret exists,
CreateSecret otherwise, passing the trimmed decoded value, the description
and the KMS key. -/
def writePhase (env : Env) (props : ResourceProperties) (secretExists : Bool)
    (decodedSecret : String) (st : Store) (n : Nat) : PhaseOut :=
  if secretExists then
    toPhase (callPhase env
      (Call.updateSecret props.SecretName props.SecretDescription
        (jsTrim decodedSecret) props.SecretKmsKeyArn) st n)
  else
    toPhase (callPhase env
      (Call.createSecret props.SecretName props.SecretDescription
        (jsTrim decodedSecret) props.SecretKmsKeyArn) st n)

/-- TS upsertSecret lines 147-161: when tags exist remotely, compute
tagsToRemove (existing entries whose key is not desired) and, when that
set is non-empty, call UntagResource -- passing the keys of ALL existing
tags, exactly as the source does. -/
def tagRemovalPhase (env : Env) (props : ResourceProperties)
    (existingTags : Option (List (String × String))) (st : Store) (n : Nat) : PhaseOut :=
  match existingTags with
  | some ets =>
    if ets.length ≠ 0 then
      let tagKeys := (newTags props).map Prod.fst
      let tagsToRemove := ets.filter (fun t => ! tagKeys.contains t.1)
      if tagsToRemove.length ≠ 0 then
        toPhase (callPhase env
          (Call.untagResource props.SecretName (ets.map Prod.fst)) st n)
      else skipPhase st n
    else skipPhase st n
  | none => skipPhase st n

/-- TS upsertSecret lines 163-171: TagResource with all desired tags, when
there are any. -/
def tagAddPhase (env : Env) (props : ResourceProperties) (st : Store) (n : Nat) : PhaseOut :=
  if (newTags props).length ≠ 0 then
    toPhase (callPhase env (Call.tagResource props.SecretName (newTags props)) st n)
  else skipPhase st n

/-- TS upsertSecret lines 142-171: tag reconciliation, removal then
application. -/
def tagPhase (env : Env) (props : ResourceProperties)
    (existingTags : Option (List (String × String))) (st : Store) (n : Nat) : PhaseOut :=
  pThen (tagRemovalPhase env props existingTags st n) (tagAddPhase env props)

/-- TS upsertSecret lines 173-191: PutResourcePolicy when a policy is
desired; otherwise DeleteResourcePolicy, swallowing
ResourceNotFoundException and rethrowing anything else. -/
def policyPhase (env : Env) (props : ResourceProperties) (st : Store) (n : Nat) : PhaseOut :=
  match props.SecretPolicy with
  | some p =>
    toPhase (callPhase env (Call.putResourcePolicy props.SecretName p) st n)
  | none =>
    let r := callPhase env (Call.deleteResourcePolicy props.SecretName) st n
    match r.1 with
    | some AwsErr.resourceNotFound => ⟨none, r.2.1, r.2.2.1, r.2.2.2⟩
    | some e => ⟨some (UpdaterErr.aws e), r.2.1, r.2.2.1, r.2.2.2⟩
    | none => ⟨none, r.2.1, r.2.2.1, r.2.2.2⟩

/-- TS upsertSecret lines 202-217: when the secret existed and has replica
regions, remove the regions not desired any more (compared by region name
only), when there are any. -/
def regionRemovalPhase (env : Env) (props : ResourceProperties) (secretExists : Bool)
    (existingReplicaRegions : Option (List String)) (st : Store) (n : Nat) : PhaseOut :=
  if secretExists then
    match existingReplicaRegions with
    | some existingRegionNames =>
      if existingRegionNames.length ≠ 0 then
        let regionNames := (newReplicatRegions props).map (·.region)
        let regionsToRemove :=
          existingRegionNames.filter (fun regionName => ! regionNames.contains regionName)
        if regionsToRemove.length ≠ 0 then
          toPhase (callPhase env
            (Call.removeRegionsFromReplication props.SecretName regionsToRemove) st n)
        else skipPhase st n
      else skipPhase st n
    | none => skipPhase st n
  else skipPhase st n

/-- TS upsertSecret lines 219-230: ReplicateSecretToRegions with all
desired replica regions, when there are any. -/
def regionAddPhase (env : Env) (props : ResourceProperties) (st : Store) (n : Nat) : PhaseOut :=
  if (newReplicatRegions props).length ≠ 0 then
    toPhase (callPhase env
      (Call.replicateSecretToRegions props.SecretName (newReplicatRegions props)) st n)
  else skipPhase st n

/-- The outcome of one whole invocation of upsertSecret. -/
structure RunOut where
  err : Option UpdaterErr
  store : Store
  trace : List TraceEntry
deriving DecidableEq

/-- TS upsertSecret: fetch the encrypted file from S3, decode it with
sops, describe the secret, write the value, then reconcile tags, resource
policy and replica regions, in that order.  Any thrown error aborts the
remaining steps. -/
def upsertSecret (env : Env) (props : ResourceProperties) (st : Store) : RunOut :=
  match env.s3 props.S3BucketName props.S3ObjectKey with
  | Except.error e =>
    ⟨some (UpdaterErr.aws e), st,
     [(Call.s3GetObject props.S3BucketName props.S3ObjectKey, some e)]⟩
  | Except.ok secretBody =>
    let em0 : List TraceEntry :=
      [(Call.s3GetObject props.S3BucketName props.S3ObjectKey, none)]
    match decodeSops env secretBody props.SecretType with
    | Except.error e => ⟨some e, st, em0⟩
    | Except.ok decodedSecret =>
      let d := describePhase env props st 0
      match d.err with
      | some e => ⟨some e, d.store, em0 ++ d.emitted⟩
      | none =>
        let p :=
          pThen (writePhase env props d.secretExists decodedSecret d.store d.counter)
            (fun st1 n1 =>
              pThen (tagPhase env props d.existingTags st1 n1) (fun st2 n2 =>
                pThen (policyPhase env props st2 n2) (fun st3 n3 =>
                  pThen
                    (regionRemovalPhase env props d.secretExists d.existingReplicaRegions st3 n3)
                    (regionAddPhase env props))))
        ⟨p.err, p.store, em0 ++ d.emitted ++ p.emitted⟩

deriving instance DecidableEq for Except

/-- The outcome of one handler invocation: the CloudFormation response
(PhysicalResourceId) or a rejection, plus the store and the trace. -/
structure HandlerOut where
  result : Except UpdaterErr String
  store : Store
  trace : List TraceEntry
deriving DecidableEq

/-- TS handleCreate: upsert, then answer with the secret name as
PhysicalResourceId. -/
def handleCreate (env : Env) (props : ResourceProperties) (st : Store) : HandlerOut :=
  let r := upsertSecret env props st
  match r.err with
  | some e => ⟨Except.error e, r.store, r.trace⟩
  | none => ⟨Except.ok props.SecretName, r.store, r.trace⟩

/-- TS handleUpdate: upsert, then answer with the incoming
PhysicalResourceId. -/
def handleUpdate (env : Env) (props : ResourceProperties) (physicalResourceId : String)
    (st : Store) : HandlerOut :=
  let r := upsertSecret env props st
  match r.err with
  | some e => ⟨Except.error e, r.store, r.trace⟩
  | none => ⟨Except.ok physicalResourceId, r.store, r.trace⟩

/-- TS handleDelete lines 251-290: DescribeSecret (ResourceNotFoundException
answers success with the same identity and no further calls), then one
RemoveRegionsFromReplication for all replica regions when any are present,
then DeleteSecret with ForceDeleteWithoutRecovery true. -/
def handleDelete (env : Env) (physicalResourceId : String) (st : Store) : HandlerOut :=
  let r1 := callPhase env (Call.describeSecret physicalResourceId) st 0
  match r1.1 with
  | some AwsErr.resourceNotFound => ⟨Except.ok physicalResourceId, r1.2.1, r1.2.2.2⟩
  | some e => ⟨Except.error (UpdaterErr.aws e), r1.2.1, r1.2.2.2⟩
  | none =>
    let replicaRegionNames :=
      match r1.2.1 with
      | some rs => rs.replicaRegions.map (·.region)
      | none => []
    let rem : PhaseOut :=
      if replicaRegionNames.length ≠ 0 then
        toPhase (callPhase env
          (Call.removeRegionsFromReplication physicalResourceId replicaRegionNames)
          r1.2.1 r1.2.2.1)
      else skipPhase r1.2.1 r1.2.2.1
    match rem.err with
    | some e => ⟨Except.error e, rem.store, r1.2.2.2 ++ rem.emitted⟩
    | none =>
      let r3 := callPhase env (Call.deleteSecret physicalResourceId true) rem.store rem.counter
      match r3.1 with
      | some e => ⟨Except.error (UpdaterErr.aws e), r3.2.1, r1.2.2.2 ++ rem.emitted ++ r3.2.2.2⟩
      | none => ⟨Except.ok physicalResourceId, r3.2.1, r1.2.2.2 ++ rem.emitted ++ r3.2.2.2⟩

/-- The raw event the entry point receives; RequestType is switched on as
a plain string in the source. -/
structure RawEvent where
  RequestType : String
  ResourceProperties : ResourceProperties
  PhysicalResourceId : String

/-- TS onEvent lines 292-307: dispatch on RequestType.  An unknown type
throws inside the synchronous try block, which the catch replaces with a
generic Error with message Failed; rejections of the returned handler
promises are NOT caught by that try/catch and reach the caller unchanged. -/
def onEvent (env : Env) (event : RawEvent) (st : Store) : HandlerOut :=
  if event.RequestType = "Create" then
    handleCreate env event.ResourceProperties st
  else if event.RequestType = "Update" then
    handleUpdate env event.ResourceProperties event.PhysicalResourceId st
  else if event.RequestType = "Delete" then
    handleDelete env event.PhysicalResourceId st
  else
    ⟨Except.error UpdaterErr.failed, st, []⟩

/-- An environment with a fixed S3 body and sops result and the given
fault-injection list. -/
def mkEnv (body : String) (sopsRes : Except String (String × String))
    (faults : List (Nat × AwsErr)) : Env :=
  ⟨fun _ _ => Except.ok body, fun _ _ => sopsRes, faults⟩

/-- A fully healthy environment: S3 answers the body, sops decodes it to
the given plaintext with empty stderr, and no faults are injected. -/
def okEnv (body stdout : String) : Env :=
  mkEnv body (Except.ok (stdout, "")) []

/-- Calls that mutate the remote secret store (everything except the S3
read and DescribeSecret). -/
def isMutatingCall : Call → Bool
  | Call.s3GetObject _ _ => false
  | Call.describeSecret _ => false
  | _ => true

/-- Calls that touch replica regions. -/
def isRegionCall : Call → Bool
  | Call.removeRegionsFromReplication _ _ => true
  | Call.replicateSecretToRegions _ _ => true
  | _ => false

/-- Trace entries whose response does not abort the invocation: successes,
a not-found answer to DescribeSecret (treated as a fresh create or an
already-deleted secret) and a not-found answer to DeleteResourcePolicy
(treated as no policy attached). -/
def cleanEntry : TraceEntry → Bool
  | (_, none) => true
  | (Call.describeSecret _, some AwsErr.resourceNotFound) => true
  | (Call.deleteResourcePolicy _, some AwsErr.resourceNotFound) => true
  | _ => false

/-- The calls for which the source never tolerates a not-found response:
tag application and removal, policy overwrite, and both replica-region
calls. -/
def notToleratedCall : Call → Bool
  | Call.untagResource _ _ => true
  | Call.tagResource _ _ => true
  | Call.putResourcePolicy _ _ => true
  | Call.removeRegionsFromReplication _ _ => true
  | Call.replicateSecretToRegions _ _ => true
  | _ => false

/-- Every entry of the list is clean (its response did not abort the
invocation). -/
def allClean (l : List TraceEntry) : Prop :=
  ∀ p ∈ l, cleanEntry p = true

/-- The invariant every reconciliation step satisfies: either it did not
throw and all its entries are clean, or it threw the AWS error of its last
entry, every earlier entry being clean. -/
def okPhaseOut (po : PhaseOut) : Prop :=
  (po.err = none ∧ allClean po.emitted) ∨
  (∃ e init c, po.err = some (UpdaterErr.aws e) ∧
    po.emitted = init ++ [(c, some e)] ∧ allClean init)

/-- The policy attached to the store, none when the secret is absent. -/
def storePolicy (st : Store) : Option String :=
  match st with
  | some rs => rs.policy
  | none => none

/-- The tags attached to the store, empty when the secret is absent. -/
def storeTags (st : Store) : List (String × String) :=
  match st with
  | some rs => rs.tags
  | none => []

/-- The names of the replica regions attached to the store, empty when
the secret is absent. -/
def storeRegionNames (st : Store) : List String :=
  match st with
  | some rs => rs.replicaRegions.map (·.region)
  | none => []

/-- The value stored in the secret, none when the secret is absent. -/
def storeValue (st : Store) : Option String :=
  match st with
  | some rs => some rs.secretString
  | none => none

/-- Derived closed form: the trace segment the tag-removal step emits in a
fault-free run against existing tags l.  Note the call passes the keys of
all existing tags, exactly as the source does. -/
def tagRemovalTrace (props : ResourceProperties) (l : List (String × String)) :
    List TraceEntry :=
  if l.length ≠ 0 ∧
      (l.filter (fun t => ! ((newTags props).map Prod.fst).contains t.1)).length ≠ 0 then
    [(Call.untagResource props.SecretName (l.map Prod.fst), none)]
  else []

/-- Derived closed form: the trace segment the tag-application step emits
in a fault-free run. -/
def tagAddTrace (props : ResourceProperties) : List TraceEntry :=
  if (newTags props).length ≠ 0 then
    [(Call.tagResource props.SecretName (newTags props), none)]
  else []

/-- Derived closed form: the trace segment the policy step emits in a
fault-free run, given the policy previously attached. -/
def policyTrace (props : ResourceProperties) (oldPolicy : Option String) :
    List TraceEntry :=
  match props.SecretPolicy with
  | some p => [(Call.putResourcePolicy props.SecretName p, none)]
  | none =>
    [(Call.deleteResourcePolicy props.SecretName,
      match oldPolicy with
      | none => some AwsErr.resourceNotFound
      | some _ => none)]

/-- The replica-region names the upsert removes: existing names that are
not desired any more, compared by region name only. -/
def regionsToRemove (props : ResourceProperties) (existingRegionNames : List String) :
    List String :=
  existingRegionNames.filter
    (fun regionName => ! ((newReplicatRegions props).map (·.region)).contains regionName)

/-- Derived closed form: the trace segment the region-removal step emits
in a fault-free run against the given existing region names. -/
def regionRemovalTrace (props : ResourceProperties) (existingRegionNames : List String) :
    List TraceEntry :=
  if (regionsToRemove props existingRegionNames).length ≠ 0 then
    [(Call.removeRegionsFromReplication props.SecretName
        (regionsToRemove props existingRegionNames), none)]
  else []

/-- Derived closed form: the trace segment the region-addition step emits
in a fault-free run. -/
def regionAddTrace (props : ResourceProperties) : List TraceEntry :=
  if (newReplicatRegions props).length ≠ 0 then
    [(Call.replicateSecretToRegions props.SecretName (newReplicatRegions props), none)]
  else []

/-- Derived closed form: the replica regions attached to the secret after
a fault-free upsert, given the regions attached before. -/
def upsertFinalRegions (props : ResourceProperties) (rr : List ReplicaRegionProp) :
    List ReplicaRegionProp :=
  let kept := removeReplicaRegionNames rr (regionsToRemove props (rr.map (·.region)))
  if (newReplicatRegions props).length ≠ 0 then
    addReplicaRegions kept (newReplicatRegions props)
  else kept

theorem lookupFault_nil (n : Nat) : lookupFault [] n = none := rfl

theorem callPhase_nofault (env : Env) (hf : env.faults = []) (c : Call) (st : Store) (n : Nat) :
    callPhase env c st n =
      match detCall c st with
      | Except.ok st' => (none, st', n + 1, [(c, none)])
      | Except.error e => (some e, st, n + 1, [(c, some e)]) := by
  unfold callPhase lookupFault
  rw [hf]
  rfl

theorem applyTags_nil (ts : List (String × String)) : applyTags [] ts = ts := by
  simp [applyTags]

theorem removeTagKeys_self (l : List (String × String)) :
    removeTagKeys l (l.map Prod.fst) = [] := by
  rw [removeTagKeys, List.filter_eq_nil_iff]
  intro a ha
  have h1 : a.1 ∈ l.map Prod.fst := List.mem_map.mpr ⟨a, ha, rfl⟩
  simpa [List.contains, List.elem_iff] using h1

theorem pThen_none (a : PhaseOut) (f : Store → Nat → PhaseOut) (h : a.err = none) :
    pThen a f =
      ⟨(f a.store a.counter).err, (f a.store a.counter).store,
       (f a.store a.counter).counter, a.emitted ++ (f a.store a.counter).emitted⟩ := by
  unfold pThen
  rw [h]

theorem pThen_some (a : PhaseOut) (f : Store → Nat → PhaseOut) (e : UpdaterErr)
    (h : a.err = some e) : pThen a f = a := by
  unfold pThen
  rw [h]

theorem writePhase_update (env : Env) (props : ResourceProperties) (d : String)
    (rs : RemoteSecret) (n : Nat) (hf : env.faults = []) :
    writePhase env props true d (some rs) n =
      ⟨none,
       some { rs with
         secretString := jsTrim d
         description := match props.SecretDescription with | some x => some x | none => rs.description
         kmsKeyId := match props.SecretKmsKeyArn with | some x => some x | none => rs.kmsKeyId },
       n + 1,
       [(Call.updateSecret props.SecretName props.SecretDescription (jsTrim d)
           props.SecretKmsKeyArn, none)]⟩ := by
  unfold writePhase
  rw [callPhase_nofault env hf]
  rfl

theorem writePhase_create (env : Env) (props : ResourceProperties) (d : String)
    (n : Nat) (hf : env.faults = []) :
    writePhase env props false d none n =
      ⟨none,
       some ⟨jsTrim d, props.SecretDescription, props.SecretKmsKeyArn, [], none, []⟩,
       n + 1,
       [(Call.createSecret props.SecretName props.SecretDescription (jsTrim d)
           props.SecretKmsKeyArn, none)]⟩ := by
  unfold writePhase
  simp only [callPhase_nofault env hf]
  rfl

theorem tagRemovalPhase_closed (env : Env) (props : ResourceProperties)
    (l : List (String × String)) (rs : RemoteSecret) (n : Nat)
    (hf : env.faults = []) (ht : rs.tags = l) :
    tagRemovalPhase env props (some l) (some rs) n =
      ⟨none,
       some { rs with tags :=
         if l.length ≠ 0 ∧
             (l.filter (fun t => ! ((newTags props).map Prod.fst).contains t.1)).length ≠ 0
         then [] else l },
       n + (tagRemovalTrace props l).length,
       tagRemovalTrace props l⟩ := by
  simp only [tagRemovalPhase, tagRemovalTrace]
  by_cases h1 : l.length ≠ 0
  · by_cases h2 :
      (l.filter (fun t => ! ((newTags props).map Prod.fst).contains t.1)).length ≠ 0
    · have h3 : l.length ≠ 0 ∧
          (l.filter (fun t => ! ((newTags props).map Prod.fst).contains t.1)).length ≠ 0 :=
        ⟨h1, h2⟩
      simp only [if_pos h1, if_pos h2, if_pos h3, callPhase_nofault env hf]
      simp [detCall, toPhase, ht, removeTagKeys_self]
    · have h3 : ¬ (l.length ≠ 0 ∧
          (l.filter (fun t => ! ((newTags props).map Prod.fst).contains t.1)).length ≠ 0) :=
        fun hc => h2 hc.2
      simp only [if_pos h1, if_neg h2, if_neg h3]
      simp [skipPhase, ← ht]
  · have h3 : ¬ (l.length ≠ 0 ∧
        (l.filter (fun t => ! ((newTags props).map Prod.fst).contains t.1)).length ≠ 0) :=
      fun hc => h1 hc.1
    simp only [if_neg h1, if_neg h3]
    simp [skipPhase, ← ht]

theorem tagAddPhase_closed (env : Env) (props : ResourceProperties)
    (rs : RemoteSecret) (n : Nat) (hf : env.faults = []) :
    tagAddPhase env props (some rs) n =
      ⟨none,
       some { rs with tags :=
         if (newTags props).length ≠ 0 then applyTags rs.tags (newTags props) else rs.tags },
       n + (tagAddTrace props).length,
       tagAddTrace props⟩ := by
  simp only [tagAddPhase, tagAddTrace]
  by_cases h1 : (newTags props).length ≠ 0
  · simp only [if_pos h1, callPhase_nofault env hf]
    simp [detCall, toPhase]
  · simp only [if_neg h1]
    simp [skipPhase]

theorem tags_reconciled (props : ResourceProperties) (l : List (String × String)) :
    (if (newTags props).length ≠ 0
     then applyTags
       (if l.length ≠ 0 ∧
           (l.filter (fun t => ! ((newTags props).map Prod.fst).contains t.1)).length ≠ 0
        then [] else l) (newTags props)
     else
       (if l.length ≠ 0 ∧
           (l.filter (fun t => ! ((newTags props).map Prod.fst).contains t.1)).length ≠ 0
        then [] else l)) = newTags props := by
  by_cases h2 : (newTags props).length ≠ 0
  · simp only [if_pos h2]
    by_cases h1 : l.length ≠ 0 ∧
        (l.filter (fun t => ! ((newTags props).map Prod.fst).contains t.1)).length ≠ 0
    · simp only [if_pos h1, applyTags_nil]
    · simp only [if_neg h1]
      rcases not_and_or.mp h1 with hA | hB
      · have hl : l = [] := by simpa using hA
        rw [hl, applyTags_nil]
      · have hB' : l.filter (fun t => ! ((newTags props).map Prod.fst).contains t.1) = [] := by
          simpa using hB
        rw [applyTags, hB']
        simp
  · simp only [if_neg h2]
    have hnew : newTags props = [] := by simpa using h2
    by_cases h1 : l.length ≠ 0 ∧
        (l.filter (fun t => ! ((newTags props).map Prod.fst).contains t.1)).length ≠ 0
    · simp only [if_pos h1]
      exact hnew.symm
    · simp only [if_neg h1]
      rcases not_and_or.mp h1 with hA | hB
      · have hl : l = [] := by simpa using hA
        rw [hl, hnew]
      · have hfilter : l.filter (fun t => ! ((newTags props).map Prod.fst).contains t.1) = l := by
          rw [hnew]
          simp
        rw [hfilter] at hB
        have hl : l = [] := by simpa using hB
        rw [hl, hnew]

theorem tagPhase_closed (env : Env) (props : ResourceProperties)
    (l : List (String × String)) (rs : RemoteSecret) (n : Nat)
    (hf : env.faults = []) (ht : rs.tags = l) :
    tagPhase env props (some l) (some rs) n =
      ⟨none, some { rs with tags := newTags props },
       n + (tagRemovalTrace props l).length + (tagAddTrace props).length,
       tagRemovalTrace props l ++ tagAddTrace props⟩ := by
  rw [tagPhase, tagRemovalPhase_closed env props l rs n hf ht, pThen_none _ _ rfl]
  dsimp only
  rw [tagAddPhase_closed env props _ _ hf]
  dsimp only
  rw [tags_reconciled props l]

theorem tagPhase_none_closed (env : Env) (props : ResourceProperties)
    (rs : RemoteSecret) (n : Nat) (hf : env.faults = []) (ht : rs.tags = []) :
    tagPhase env props none (some rs) n =
      ⟨none, some { rs with tags := newTags props },
       n + (tagAddTrace props).length, tagAddTrace props⟩ := by
  rw [tagPhase]
  have hrem : tagRemovalPhase env props none (some rs) n = skipPhase (some rs) n := rfl
  rw [hrem, skipPhase, pThen_none _ _ rfl]
  dsimp only
  rw [tagAddPhase_closed env props _ _ hf]
  by_cases h2 : (newTags props).length ≠ 0
  · simp only [if_pos h2, ht, applyTags_nil]
    simp
  · have hnew : newTags props = [] := by simpa using h2
    simp only [if_neg h2, ht, hnew]
    simp

theorem policyPhase_closed (env : Env) (props : ResourceProperties)
    (rs : RemoteSecret) (n : Nat) (hf : env.faults = []) :
    policyPhase env props (some rs) n =
      ⟨none, some { rs with policy := props.SecretPolicy }, n + 1,
       policyTrace props rs.policy⟩ := by
  obtain ⟨ss, de, km, tg, po, rr⟩ := rs
  simp only [policyPhase, policyTrace]
  cases hp : props.SecretPolicy with
  | some p =>
    simp only [callPhase_nofault env hf]
    simp [detCall, toPhase]
  | none =>
    cases po <;> simp only [callPhase_nofault env hf] <;> simp [detCall, toPhase]

theorem regionRemovalPhase_closed (env : Env) (props : ResourceProperties)
    (names : List String) (rs : RemoteSecret) (n : Nat)
    (hf : env.faults = []) (hn : names = rs.replicaRegions.map (·.region)) :
    regionRemovalPhase env props true (some names) (some rs) n =
      ⟨none,
       some { rs with replicaRegions :=
         removeReplicaRegionNames rs.replicaRegions (regionsToRemove props names) },
       n + (regionRemovalTrace props names).length,
       regionRemovalTrace props names⟩ := by
  simp only [regionRemovalPhase, regionRemovalTrace, regionsToRemove, if_pos trivial]
  by_cases h1 : names.length ≠ 0
  · by_cases h2 :
      (names.filter (fun regionName =>
        ! ((newReplicatRegions props).map (·.region)).contains regionName)).length ≠ 0
    · simp only [if_pos h1, if_pos h2, callPhase_nofault env hf]
      simp [detCall, toPhase]
    · simp only [if_pos h1, if_neg h2, skipPhase]
      have hfil : names.filter (fun regionName =>
          ! ((newReplicatRegions props).map (·.region)).contains regionName) = [] := by
        simpa using h2
      rw [hfil]
      simp [removeReplicaRegionNames]
  · have hnil : names = [] := by simpa using h1
    subst hnil
    have hrr : rs.replicaRegions = [] := by
      have := hn.symm
      rwa [List.map_eq_nil_iff] at this
    simp only [if_neg h1, skipPhase]
    simp [removeReplicaRegionNames, hrr]
    rw [← hrr]

theorem regionRemovalPhase_notExists (env : Env) (props : ResourceProperties)
    (ex : Option (List String)) (st : Store) (n : Nat) :
    regionRemovalPhase env props false ex st n = skipPhase st n := rfl

theorem regionAddPhase_closed (env : Env) (props : ResourceProperties)
    (rs : RemoteSecret) (n : Nat) (hf : env.faults = []) :
    regionAddPhase env props (some rs) n =
      ⟨none,
       some { rs with replicaRegions :=
         if (newReplicatRegions props).length ≠ 0
         then addReplicaRegions rs.replicaRegions (newReplicatRegions props)
         else rs.replicaRegions },
       n + (regionAddTrace props).length,
       regionAddTrace props⟩ := by
  simp only [regionAddPhase, regionAddTrace]
  by_cases h1 : (newReplicatRegions props).length ≠ 0
  · simp only [if_pos h1, callPhase_nofault env hf]
    simp [detCall, toPhase]
  · simp only [if_neg h1, skipPhase]
    simp

theorem describePhase_some (env : Env) (props : ResourceProperties)
    (rs0 : RemoteSecret) (hf : env.faults = []) :
    describePhase env props (some rs0) 0 =
      ⟨none, true, some rs0.tags, some (rs0.replicaRegions.map (·.region)), some rs0, 1,
       [(Call.describeSecret props.SecretName, none)]⟩ := by
  unfold describePhase
  simp only [callPhase_nofault env hf]
  rfl

theorem describePhase_absent (env : Env) (props : ResourceProperties) (hf : env.faults = []) :
    describePhase env props none 0 =
      ⟨none, false, none, none, none, 1,
       [(Call.describeSecret props.SecretName, some AwsErr.resourceNotFound)]⟩ := by
  unfold describePhase
  simp only [callPhase_nofault env hf]
  rfl

theorem upsert_okEnv_some (body out : String) (props : ResourceProperties)
    (rs0 : RemoteSecret) :
    upsertSecret (okEnv body out) props (some rs0) =
      ⟨none,
       some ⟨jsTrim out,
             (match props.SecretDescription with | some x => some x | none => rs0.description),
             (match props.SecretKmsKeyArn with | some x => some x | none => rs0.kmsKeyId),
             newTags props,
             props.SecretPolicy,
             upsertFinalRegions props rs0.replicaRegions⟩,
       [(Call.s3GetObject props.S3BucketName props.S3ObjectKey, none),
        (Call.describeSecret props.SecretName, none),
        (Call.updateSecret props.SecretName props.SecretDescription (jsTrim out)
           props.SecretKmsKeyArn, none)]
       ++ tagRemovalTrace props rs0.tags ++ tagAddTrace props
       ++ policyTrace props rs0.policy
       ++ regionRemovalTrace props (rs0.replicaRegions.map (·.region))
       ++ regionAddTrace props⟩ := by
  have hf : (okEnv body out).faults = [] := rfl
  have hs3 : (okEnv body out).s3 props.S3BucketName props.S3ObjectKey = Except.ok body := rfl
  have hsops : decodeSops (okEnv body out) body props.SecretType = Except.ok out := rfl
  simp only [upsertSecret, hs3, hsops]
  rw [describePhase_some _ props rs0 hf]
  dsimp only
  rw [writePhase_update _ props out rs0 1 hf, pThen_none _ _ rfl]
  dsimp only
  rw [tagPhase_closed (okEnv body out) props rs0.tags
      ⟨jsTrim out,
       (match props.SecretDescription with | some x => some x | none => rs0.description),
       (match props.SecretKmsKeyArn with | some x => some x | none => rs0.kmsKeyId),
       rs0.tags, rs0.policy, rs0.replicaRegions⟩ (1 + 1) hf rfl,
     pThen_none _ _ rfl]
  dsimp only
  rw [policyPhase_closed _ props _ _ hf, pThen_none _ _ rfl]
  dsimp only
  rw [regionRemovalPhase_closed (okEnv body out) props (rs0.replicaRegions.map (·.region))
      ⟨jsTrim out,
       (match props.SecretDescription with | some x => some x | none => rs0.description),
       (match props.SecretKmsKeyArn with | some x => some x | none => rs0.kmsKeyId),
       newTags props, props.SecretPolicy, rs0.replicaRegions⟩ _ hf rfl,
      pThen_none _ _ rfl]
  dsimp only
  rw [regionAddPhase_closed _ props _ _ hf]
  simp [upsertFinalRegions, List.append_assoc]

theorem upsert_okEnv_absent (body out : String) (props : ResourceProperties) :
    upsertSecret (okEnv body out) props none =
      ⟨none,
       some ⟨jsTrim out, props.SecretDescription, props.SecretKmsKeyArn,
             newTags props, props.SecretPolicy,
             if (newReplicatRegions props).length ≠ 0
             then addReplicaRegions [] (newReplicatRegions props)
             else []⟩,
       [(Call.s3GetObject props.S3BucketName props.S3ObjectKey, none),
        (Call.describeSecret props.SecretName, some AwsErr.resourceNotFound),
        (Call.createSecret props.SecretName props.SecretDescription (jsTrim out)
           props.SecretKmsKeyArn, none)]
       ++ tagAddTrace props
       ++ policyTrace props none
       ++ regionAddTrace props⟩ := by
  have hf : (okEnv body out).faults = [] := rfl
  have hs3 : (okEnv body out).s3 props.S3BucketName props.S3ObjectKey = Except.ok body := rfl
  have hsops : decodeSops (okEnv body out) body props.SecretType = Except.ok out := rfl
  simp only [upsertSecret, hs3, hsops]
  rw [describePhase_absent _ props hf]
  dsimp only
  rw [writePhase_create _ props out 1 hf, pThen_none _ _ rfl]
  dsimp only
  rw [tagPhase_none_closed (okEnv body out) props
      ⟨jsTrim out, props.SecretDescription, props.SecretKmsKeyArn, [], none, []⟩
      (1 + 1) hf rfl,
     pThen_none _ _ rfl]
  dsimp only
  rw [policyPhase_closed _ props _ _ hf, pThen_none _ _ rfl]
  dsimp only
  rw [regionRemovalPhase_notExists, skipPhase, pThen_none _ _ rfl]
  dsimp only
  rw [regionAddPhase_closed _ props _ _ hf]
  simp [List.append_assoc]

theorem callPhase_shape (env : Env) (c : Call) (st : Store) (n : Nat) :
    (callPhase env c st n).1 = none ∧
      callPhase env c st n = (none, (callPhase env c st n).2.1, n + 1, [(c, none)]) ∨
    ∃ e, callPhase env c st n = (some e, st, n + 1, [(c, some e)]) := by
  unfold callPhase
  cases hl : lookupFault env.faults n with
  | some e => right; exact ⟨e, rfl⟩
  | none =>
    cases hd : detCall c st with
    | ok st2 => left; exact ⟨rfl, rfl⟩
    | error e => right; exact ⟨e, rfl⟩

theorem callPhase_err_eq (env : Env) (c : Call) (st : Store) (n : Nat) (e : AwsErr)
    (h : (callPhase env c st n).1 = some e) :
    callPhase env c st n = (some e, st, n + 1, [(c, some e)]) := by
  rcases callPhase_shape env c st n with ⟨h1, _⟩ | ⟨e2, h2⟩
  · rw [h1] at h
    exact absurd h (by simp)
  · rw [h2] at h
    simp at h
    rw [h2, h]

theorem cleanEntry_ok (c : Call) : cleanEntry (c, none) = true := by
  cases c <;> rfl

theorem okPhaseOut_toPhase_callPhase (env : Env) (c : Call) (st : Store) (n : Nat) :
    okPhaseOut (toPhase (callPhase env c st n)) := by
  rcases callPhase_shape env c st n with ⟨_, h⟩ | ⟨e, h⟩
  · rw [h]
    left
    refine ⟨rfl, ?_⟩
    intro p hp
    simp only [toPhase] at hp
    simp at hp
    rw [hp]
    exact cleanEntry_ok c
  · rw [h]
    right
    refine ⟨e, [], c, rfl, rfl, ?_⟩
    intro p hp
    simp at hp

theorem okPhaseOut_skip (st : Store) (n : Nat) : okPhaseOut (skipPhase st n) := by
  left
  refine ⟨rfl, ?_⟩
  intro p hp
  simp [skipPhase] at hp

theorem okPhaseOut_pThen (a : PhaseOut) (f : Store → Nat → PhaseOut)
    (ha : okPhaseOut a) (hf2 : ∀ st n, okPhaseOut (f st n)) :
    okPhaseOut (pThen a f) := by
  rcases ha with ⟨he, hc⟩ | ⟨e, init, c, he, hem, hc⟩
  · rw [pThen_none a f he]
    rcases hf2 a.store a.counter with ⟨he2, hc2⟩ | ⟨e2, init2, c2, he2, hem2, hc2⟩
    · left
      refine ⟨he2, ?_⟩
      intro p hp
      rcases List.mem_append.mp hp with h | h
      · exact hc p h
      · exact hc2 p h
    · right
      refine ⟨e2, a.emitted ++ init2, c2, he2, ?_, ?_⟩
      · dsimp only
        rw [hem2, ← List.append_assoc]
      · intro p hp
        rcases List.mem_append.mp hp with h | h
        · exact hc p h
        · exact hc2 p h
  · rw [pThen_some a f (UpdaterErr.aws e) he]
    right
    exact ⟨e, init, c, he, hem, hc⟩

theorem okPhaseOut_writePhase (env : Env) (props : ResourceProperties) (b : Bool)
    (d : String) (st : Store) (n : Nat) : okPhaseOut (writePhase env props b d st n) := by
  unfold writePhase
  split
  · exact okPhaseOut_toPhase_callPhase _ _ _ _
  · exact okPhaseOut_toPhase_callPhase _ _ _ _

theorem okPhaseOut_tagRemovalPhase (env : Env) (props : ResourceProperties)
    (ets : Option (List (String × String))) (st : Store) (n : Nat) :
    okPhaseOut (tagRemovalPhase env props ets st n) := by
  unfold tagRemovalPhase
  cases ets with
  | none => exact okPhaseOut_skip _ _
  | some l =>
    dsimp only
    split
    · split
      · exact okPhaseOut_toPhase_callPhase _ _ _ _
      · exact okPhaseOut_skip _ _
    · exact okPhaseOut_skip _ _

theorem okPhaseOut_tagAddPhase (env : Env) (props : ResourceProperties)
    (st : Store) (n : Nat) : okPhaseOut (tagAddPhase env props st n) := by
  unfold tagAddPhase
  split
  · exact okPhaseOut_toPhase_callPhase _ _ _ _
  · exact okPhaseOut_skip _ _

theorem okPhaseOut_tagPhase (env : Env) (props : ResourceProperties)
    (ets : Option (List (String × String))) (st : Store) (n : Nat) :
    okPhaseOut (tagPhase env props ets st n) := by
  unfold tagPhase
  exact okPhaseOut_pThen _ _ (okPhaseOut_tagRemovalPhase env props ets st n)
    (fun st2 n2 => okPhaseOut_tagAddPhase env props st2 n2)

theorem okPhaseOut_policyPhase (env : Env) (props : ResourceProperties)
    (st : Store) (n : Nat) : okPhaseOut (policyPhase env props st n) := by
  unfold policyPhase
  cases props.SecretPolicy with
  | some p => exact okPhaseOut_toPhase_callPhase _ _ _ _
  | none =>
    dsimp only
    rcases callPhase_shape env (Call.deleteResourcePolicy props.SecretName) st n
      with ⟨_, h⟩ | ⟨e, h⟩
    · rw [h]
      left
      refine ⟨rfl, ?_⟩
      intro p hp
      simp at hp
      rw [hp]
      exact cleanEntry_ok _
    · rw [h]
      cases e with
      | resourceNotFound =>
        left
        refine ⟨rfl, ?_⟩
        intro p hp
        simp at hp
        rw [hp]
        rfl
      | otherFailure m =>
        right
        refine ⟨AwsErr.otherFailure m, [], Call.deleteResourcePolicy props.SecretName,
          rfl, rfl, ?_⟩
        intro p hp
        simp at hp

theorem okPhaseOut_regionRemovalPhase (env : Env) (props : ResourceProperties)
    (b : Bool) (ex : Option (List String)) (st : Store) (n : Nat) :
    okPhaseOut (regionRemovalPhase env props b ex st n) := by
  unfold regionRemovalPhase
  split
  · cases ex with
    | none => exact okPhaseOut_skip _ _
    | some l =>
      dsimp only
      split
      · split
        · exact okPhaseOut_toPhase_callPhase _ _ _ _
        · exact okPhaseOut_skip _ _
      · exact okPhaseOut_skip _ _
  · exact okPhaseOut_skip _ _

theorem okPhaseOut_regionAddPhase (env : Env) (props : ResourceProperties)
    (st : Store) (n : Nat) : okPhaseOut (regionAddPhase env props st n) := by
  unfold regionAddPhase
  split
  · exact okPhaseOut_toPhase_callPhase _ _ _ _
  · exact okPhaseOut_skip _ _

theorem describePhase_entries (env : Env) (props : ResourceProperties)
    (st : Store) (n : Nat) :
    ((describePhase env props st n).err = none ∧
      allClean (describePhase env props st n).emitted) ∨
    (∃ e, (describePhase env props st n).err = some (UpdaterErr.aws e) ∧
      (describePhase env props st n).emitted =
        [(Call.describeSecret props.SecretName, some e)]) := by
  unfold describePhase
  rcases callPhase_shape env (Call.describeSecret props.SecretName) st n
    with ⟨_, h⟩ | ⟨e, h⟩
  · rw [h]
    dsimp only
    cases (callPhase env (Call.describeSecret props.SecretName) st n).2.1 with
    | some rs =>
      left
      refine ⟨rfl, ?_⟩
      intro p hp
      simp at hp
      rw [hp]
      exact cleanEntry_ok _
    | none =>
      left
      refine ⟨rfl, ?_⟩
      intro p hp
      simp at hp
      rw [hp]
      exact cleanEntry_ok _
  · rw [h]
    cases e with
    | resourceNotFound =>
      left
      refine ⟨rfl, ?_⟩
      intro p hp
      simp at hp
      rw [hp]
      rfl
    | otherFailure m =>
      right
      exact ⟨AwsErr.otherFailure m, rfl, rfl⟩

theorem upsert_trace_clean (env : Env) (props : ResourceProperties) (st : Store)
    (p : TraceEntry) (hp : p ∈ (upsertSecret env props st).trace) :
    cleanEntry p = true ∨
    ∃ e init, p.2 = some e ∧
      (upsertSecret env props st).err = some (UpdaterErr.aws e) ∧
      (upsertSecret env props st).trace = init ++ [p] ∧ allClean init := by
  cases hs : env.s3 props.S3BucketName props.S3ObjectKey with
  | error e =>
    simp only [upsertSecret, hs] at hp ⊢
    simp at hp
    right
    refine ⟨e, [], ?_, rfl, ?_, ?_⟩
    · rw [hp]
    · rw [hp]
      rfl
    · intro q hq
      simp at hq
  | ok body =>
    cases hdec : decodeSops env body props.SecretType with
    | error e =>
      simp only [upsertSecret, hs, hdec] at hp ⊢
      simp at hp
      left
      rw [hp]
      exact cleanEntry_ok _
    | ok dec =>
      simp only [upsertSecret, hs, hdec] at hp ⊢
      rcases describePhase_entries env props st 0 with ⟨hde, hdc⟩ | ⟨e, hde, hdem⟩
      · rw [hde] at hp ⊢
        dsimp only at hp ⊢
        have hP := okPhaseOut_pThen _ _
          (okPhaseOut_writePhase env props (describePhase env props st 0).secretExists dec
            (describePhase env props st 0).store (describePhase env props st 0).counter)
          (fun st1 n1 => okPhaseOut_pThen _ _
            (okPhaseOut_tagPhase env props (describePhase env props st 0).existingTags st1 n1)
            (fun st2 n2 => okPhaseOut_pThen _ _
              (okPhaseOut_policyPhase env props st2 n2)
              (fun st3 n3 => okPhaseOut_pThen _ _
                (okPhaseOut_regionRemovalPhase env props
                  (describePhase env props st 0).secretExists
                  (describePhase env props st 0).existingReplicaRegions st3 n3)
                (fun st4 n4 => okPhaseOut_regionAddPhase env props st4 n4))))
        rcases hP with ⟨hPe, hPc⟩ | ⟨e, init, c, hPe, hPem, hPc⟩
        · left
          rcases List.mem_append.mp hp with h1 | h1
          · rcases List.mem_append.mp h1 with h2 | h2
            · simp at h2
              rw [h2]
              exact cleanEntry_ok _
            · exact hdc p h2
          · exact hPc p h1
        · rw [hPem] at hp
          rcases List.mem_append.mp hp with h1 | h1
          · left
            rcases List.mem_append.mp h1 with h2 | h2
            · simp at h2
              rw [h2]
              exact cleanEntry_ok _
            · exact hdc p h2
          · rcases List.mem_append.mp h1 with h2 | h2
            · left
              exact hPc p h2
            · simp at h2
              right
              refine ⟨e, [(Call.s3GetObject props.S3BucketName props.S3ObjectKey, none)]
                ++ (describePhase env props st 0).emitted ++ init, ?_, hPe, ?_, ?_⟩
              · rw [h2]
              · rw [hPem, h2]
                simp [List.append_assoc]
              · intro q hq
                rcases List.mem_append.mp hq with h3 | h3
                · rcases List.mem_append.mp h3 with h4 | h4
                  · simp at h4
                    rw [h4]
                    exact cleanEntry_ok _
                  · exact hdc q h4
                · exact hPc q h3
      · rw [hde] at hp ⊢
        dsimp only at hp ⊢
        rw [hdem] at hp
        rcases List.mem_append.mp hp with h1 | h1
        · left
          simp at h1
          rw [h1]
          exact cleanEntry_ok _
        · simp at h1
          cases e with
          | resourceNotFound =>
            left
            rw [h1]
            rfl
          | otherFailure m =>
            right
            refine ⟨AwsErr.otherFailure m,
              [(Call.s3GetObject props.S3BucketName props.S3ObjectKey, none)], ?_, rfl, ?_, ?_⟩
            · rw [h1]
            · rw [hdem, h1]
            · intro q hq
              simp at hq
              rw [hq]
              exact cleanEntry_ok _

theorem handleDelete_notFound (env : Env) (pid : String) (st : Store)
    (h : (callPhase env (Call.describeSecret pid) st 0).1 = some AwsErr.resourceNotFound) :
    handleDelete env pid st =
      ⟨Except.ok pid, st, [(Call.describeSecret pid, some AwsErr.resourceNotFound)]⟩ := by
  unfold handleDelete
  rw [callPhase_err_eq env _ st 0 _ h]

theorem handleDelete_closed (env : Env) (pid : String) (rs : RemoteSecret)
    (hf : env.faults = []) :
    handleDelete env pid (some rs) =
      ⟨Except.ok pid, none,
       [(Call.describeSecret pid, none)]
       ++ (if (rs.replicaRegions.map (·.region)).length ≠ 0
           then [(Call.removeRegionsFromReplication pid
                   (rs.replicaRegions.map (·.region)), none)]
           else [])
       ++ [(Call.deleteSecret pid true, none)]⟩ := by
  unfold handleDelete
  simp only [callPhase_nofault env hf]
  dsimp only [detCall]
  by_cases hr : (rs.replicaRegions.map (·.region)).length ≠ 0
  · simp only [if_pos hr]
    simp [detCall, toPhase, skipPhase]
  · simp only [if_neg hr]
    simp [detCall, toPhase, skipPhase]

theorem head?_dropWhile_false {α : Type} (p : α → Bool) (l : List α) (c : α)
    (h : (l.dropWhile p).head? = some c) : p c = false := by
  have hne : l.dropWhile p ≠ [] := by
    intro h0
    rw [h0] at h
    simp at h
  have h2 := List.head_dropWhile_not p l hne
  rw [List.head?_eq_head hne] at h
  simp at h
  rw [← h]
  exact h2

theorem dropWhile_decomposition {α : Type} (p : α → Bool) (m : List α) :
    m = ((m.reverse.dropWhile p).reverse) ++ ((m.reverse.takeWhile p).reverse) := by
  have h := List.takeWhile_append_dropWhile p m.reverse
  calc m = m.reverse.reverse := (List.reverse_reverse m).symm
  _ = (m.reverse.takeWhile p ++ m.reverse.dropWhile p).reverse := by rw [h]
  _ = (m.reverse.dropWhile p).reverse ++ (m.reverse.takeWhile p).reverse := by
        rw [List.reverse_append]

theorem jsTrimList_decomposition (l : List Char) :
    ∃ pre post, l = pre ++ jsTrimList l ++ post ∧
      (∀ c ∈ pre, isJsWhitespace c = true) ∧
      (∀ c ∈ post, isJsWhitespace c = true) := by
  refine ⟨l.takeWhile isJsWhitespace,
          ((l.dropWhile isJsWhitespace).reverse.takeWhile isJsWhitespace).reverse,
          ?_, ?_, ?_⟩
  · conv_lhs => rw [← List.takeWhile_append_dropWhile isJsWhitespace l]
    rw [List.append_assoc]
    congr 1
    rw [jsTrimList]
    exact dropWhile_decomposition isJsWhitespace (l.dropWhile isJsWhitespace)
  · intro c hc
    exact List.mem_takeWhile_imp hc
  · intro c hc
    rw [List.mem_reverse] at hc
    exact List.mem_takeWhile_imp hc

theorem jsTrimList_head (l : List Char) (c : Char)
    (h : (jsTrimList l).head? = some c) : isJsWhitespace c = false := by
  have hm : (l.dropWhile isJsWhitespace).head? = some c := by
    conv_lhs =>
      rw [dropWhile_decomposition isJsWhitespace (l.dropWhile isJsWhitespace)]
    rw [← jsTrimList]
    cases hjt : (jsTrimList l) with
    | nil => rw [hjt] at h; simp at h
    | cons a as =>
      rw [hjt] at h
      simp at h
      simp [h]
  exact head?_dropWhile_false isJsWhitespace l c hm

theorem jsTrimList_getLast (l : List Char) (c : Char)
    (h : (jsTrimList l).getLast? = some c) : isJsWhitespace c = false := by
  rw [List.getLast?_eq_head?_reverse] at h
  rw [jsTrimList, List.reverse_reverse] at h
  exact head?_dropWhile_false isJsWhitespace (l.dropWhile isJsWhitespace).reverse c h

/-- Claim C1 (code bug): the source computes tagsToRemove as the existing
tags whose key is not desired, but the UntagResource call passes the keys
of ALL existing tags.  At this input the complement is just the key b,
while the emitted call carries both a and b. -/
theorem untagResource_passes_all_existing_keys :
    ((upsertSecret (okEnv "c" "p")
        ⟨"s", SecretContentType.json, "b", "k", none, none, some [("a", "1")], none, none⟩
        (some ⟨"old", none, none, [("a", "1"), ("b", "2")], some "pol", []⟩)).trace =
      [(Call.s3GetObject "b" "k", none),
       (Call.describeSecret "s", none),
       (Call.updateSecret "s" none "p" none, none),
       (Call.untagResource "s" ["a", "b"], none),
       (Call.tagResource "s" [("a", "1")], none),
       (Call.deleteResourcePolicy "s", none)]) ∧
    ([("a", "1"), ("b", "2")].filter
        (fun t => ! (([("a", "1")].map Prod.fst).contains t.1))).map Prod.fst = ["b"] := by
  decide

/-- Claim C2: upserting with desired tags A and then with desired tags B,
in a fault-free environment, leaves the remote tag set equal to exactly B,
whatever the initial store and whatever A left behind. -/
theorem upsert_tags_converge_to_desired (A B : List (String × String))
    (body out : String) (props : ResourceProperties) (st : Store)
    (hA : A.length ≤ 50) (hB : B.length ≤ 50) :
    ((upsertSecret (okEnv body out) { props with SecretTags := some B }
        (upsertSecret (okEnv body out) { props with SecretTags := some A } st).store).err
      = none) ∧
    storeTags ((upsertSecret (okEnv body out) { props with SecretTags := some B }
        (upsertSecret (okEnv body out) { props with SecretTags := some A } st).store).store) = B := by
  cases st with
  | none =>
    rw [upsert_okEnv_absent body out { props with SecretTags := some A }]
    dsimp only
    rw [upsert_okEnv_some body out { props with SecretTags := some B } _]
    exact ⟨rfl, rfl⟩
  | some rs0 =>
    rw [upsert_okEnv_some body out { props with SecretTags := some A } rs0]
    dsimp only
    rw [upsert_okEnv_some body out { props with SecretTags := some B } _]
    exact ⟨rfl, rfl⟩

theorem upsert_tags_converge_to_desired_witness :
    ((upsertSecret (okEnv "c" "p")
        { SecretName := "s", SecretType := SecretContentType.json, S3BucketName := "b",
          S3ObjectKey := "k", SecretKmsKeyArn := none, SecretDescription := none,
          SecretTags := some [("env", "prod")], SecretPolicy := none,
          SecretReplicaRegions := none }
        (upsertSecret (okEnv "c" "p")
          { SecretName := "s", SecretType := SecretContentType.json, S3BucketName := "b",
            S3ObjectKey := "k", SecretKmsKeyArn := none, SecretDescription := none,
            SecretTags := some [("env", "staging"), ("team", "x")], SecretPolicy := none,
            SecretReplicaRegions := none } none).store).err = none) ∧
    storeTags ((upsertSecret (okEnv "c" "p")
        { SecretName := "s", SecretType := SecretContentType.json, S3BucketName := "b",
          S3ObjectKey := "k", SecretKmsKeyArn := none, SecretDescription := none,
          SecretTags := some [("env", "prod")], SecretPolicy := none,
          SecretReplicaRegions := none }
        (upsertSecret (okEnv "c" "p")
          { SecretName := "s", SecretType := SecretContentType.json, S3BucketName := "b",
            S3ObjectKey := "k", SecretKmsKeyArn := none, SecretDescription := none,
            SecretTags := some [("env", "staging"), ("team", "x")], SecretPolicy := none,
            SecretReplicaRegions := none } none).store).store) = [("env", "prod")] :=
  upsert_tags_converge_to_desired [("env", "staging"), ("team", "x")] [("env", "prod")]
    "c" "p"
    { SecretName := "s", SecretType := SecretContentType.json, S3BucketName := "b",
      S3ObjectKey := "k", SecretKmsKeyArn := none, SecretDescription := none,
      SecretTags := some [("env", "prod")], SecretPolicy := none,
      SecretReplicaRegions := none }
    none (by decide) (by decide)

/-- Claim C4: when the initial describe answers resource-not-found, Delete
returns success with the same identity and issues no further remote call;
and with no faults injected, invoking Delete twice in succession succeeds
both times. -/
theorem handleDelete_idempotent (env : Env) (pid : String) (st : Store) :
    ((callPhase env (Call.describeSecret pid) st 0).1 = some AwsErr.resourceNotFound →
      handleDelete env pid st =
        ⟨Except.ok pid, st, [(Call.describeSecret pid, some AwsErr.resourceNotFound)]⟩) ∧
    (env.faults = [] →
      (handleDelete env pid st).result = Except.ok pid ∧
      (handleDelete env pid (handleDelete env pid st).store).result = Except.ok pid) := by
  constructor
  · exact handleDelete_notFound env pid st
  · intro hf
    have hnm : (callPhase env (Call.describeSecret pid) none 0).1
        = some AwsErr.resourceNotFound := by
      rw [callPhase_nofault env hf]
      rfl
    cases st with
    | none =>
      rw [handleDelete_notFound env pid none hnm]
      dsimp only
      rw [handleDelete_notFound env pid none hnm]
      exact ⟨rfl, rfl⟩
    | some rs =>
      rw [handleDelete_closed env pid rs hf]
      dsimp only
      rw [handleDelete_notFound env pid none hnm]
      exact ⟨rfl, rfl⟩

theorem handleDelete_idempotent_witness :
    (handleDelete (mkEnv "c" (Except.ok ("p", "")) []) "x" none).result = Except.ok "x" ∧
    (handleDelete (mkEnv "c" (Except.ok ("p", "")) []) "x"
      (handleDelete (mkEnv "c" (Except.ok ("p", "")) []) "x" none).store).result
      = Except.ok "x" :=
  (handleDelete_idempotent (mkEnv "c" (Except.ok ("p", "")) []) "x" none).2 rfl

/-- Claim C5: deleting an existing secret with replica regions removes all
of them in a single call issued strictly before the delete call, and the
delete call requests permanent, non-recoverable removal
(ForceDeleteWithoutRecovery true); the final store reports the secret
absent. -/
theorem handleDelete_removes_replicas_before_delete (env : Env) (pid : String)
    (rs : RemoteSecret) (hf : env.faults = []) (hr : rs.replicaRegions ≠ []) :
    handleDelete env pid (some rs) =
      ⟨Except.ok pid, none,
       [(Call.describeSecret pid, none),
        (Call.removeRegionsFromReplication pid (rs.replicaRegions.map (·.region)), none),
        (Call.deleteSecret pid true, none)]⟩ := by
  rw [handleDelete_closed env pid rs hf]
  have hlen : (rs.replicaRegions.map (·.region)).length ≠ 0 := by
    intro h0
    apply hr
    rwa [List.length_map, List.length_eq_zero] at h0
  rw [if_pos hlen]
  rfl

theorem handleDelete_removes_replicas_before_delete_witness :
    handleDelete (mkEnv "c" (Except.ok ("p", "")) []) "x"
      (some ⟨"v", none, none, [], none, [⟨"us-west-2", none⟩, ⟨"eu-west-1", none⟩]⟩) =
      ⟨Except.ok "x", none,
       [(Call.describeSecret "x", none),
        (Call.removeRegionsFromReplication "x" ["us-west-2", "eu-west-1"], none),
        (Call.deleteSecret "x" true, none)]⟩ :=
  handleDelete_removes_replicas_before_delete (mkEnv "c" (Except.ok ("p", "")) []) "x"
    ⟨"v", none, none, [], none, [⟨"us-west-2", none⟩, ⟨"eu-west-1", none⟩]⟩
    rfl (by decide)

theorem cleanEntry_notTolerated_false (c : Call)
    (hc : notToleratedCall c = true) :
    cleanEntry (c, some AwsErr.resourceNotFound) = false := by
  cases c <;> first
    | rfl
    | simp [notToleratedCall] at hc

/-- Claim C3 as stated is false: the clear-resource-policy call tolerates
a resource-not-found response.  At this concrete input (desired policy
absent, remote policy absent) the clear call receives resource-not-found,
yet the upsert succeeds and still issues the later region call. -/
theorem deleteResourcePolicy_notFound_tolerated_cex :
    ((upsertSecret (okEnv "c" "p")
        ⟨"s", SecretContentType.json, "b", "k", none, none, none, none,
         some [⟨"r1", none⟩]⟩
        (some ⟨"old", none, none, [], none, []⟩)).err = none) ∧
    ((Call.deleteResourcePolicy "s", some AwsErr.resourceNotFound) ∈
      (upsertSecret (okEnv "c" "p")
        ⟨"s", SecretContentType.json, "b", "k", none, none, none, none,
         some [⟨"r1", none⟩]⟩
        (some ⟨"old", none, none, [], none, []⟩)).trace) ∧
    ((Call.replicateSecretToRegions "s" [⟨"r1", none⟩], none) ∈
      (upsertSecret (okEnv "c" "p")
        ⟨"s", SecretContentType.json, "b", "k", none, none, none, none,
         some [⟨"r1", none⟩]⟩
        (some ⟨"old", none, none, [], none, []⟩)).trace) := by
  decide

/-- Claim C3 (amended): a resource-not-found response to the tag-removal,
tag-application, put-resource-policy, or replica-region calls is never
tolerated: the upsert fails with that error and the failing call is the
last entry of the trace.  The clear-resource-policy call is the one
exception, stated separately in the counterexample. -/
theorem upsert_notFound_propagation_amended (env : Env) (props : ResourceProperties)
    (st : Store) (p : TraceEntry)
    (hp : p ∈ (upsertSecret env props st).trace)
    (hnf : p.2 = some AwsErr.resourceNotFound)
    (hc : notToleratedCall p.1 = true) :
    (upsertSecret env props st).err = some (UpdaterErr.aws AwsErr.resourceNotFound) ∧
    ∃ init, (upsertSecret env props st).trace = init ++ [p] := by
  obtain ⟨c, r⟩ := p
  dsimp only at hnf hc
  subst hnf
  rcases upsert_trace_clean env props st (c, some AwsErr.resourceNotFound) hp with
    hclean | ⟨e, init, h2, herr, htr, _⟩
  · rw [cleanEntry_notTolerated_false c hc] at hclean
    exact absurd hclean (by simp)
  · dsimp only at h2
    have he : e = AwsErr.resourceNotFound := by
      injection h2.symm
    subst he
    exact ⟨herr, init, htr⟩

theorem upsert_notFound_propagation_amended_witness :
    ((upsertSecret (mkEnv "c" (Except.ok ("p", "")) [(2, AwsErr.resourceNotFound)])
        ⟨"s", SecretContentType.json, "b", "k", none, none, some [("b", "y")], none, none⟩
        (some ⟨"old", none, none, [("a", "x")], some "pol", []⟩)).err
      = some (UpdaterErr.aws AwsErr.resourceNotFound)) ∧
    ∃ init,
      (upsertSecret (mkEnv "c" (Except.ok ("p", "")) [(2, AwsErr.resourceNotFound)])
        ⟨"s", SecretContentType.json, "b", "k", none, none, some [("b", "y")], none, none⟩
        (some ⟨"old", none, none, [("a", "x")], some "pol", []⟩)).trace
      = init ++ [(Call.untagResource "s" ["a"], some AwsErr.resourceNotFound)] :=
  upsert_notFound_propagation_amended
    (mkEnv "c" (Except.ok ("p", "")) [(2, AwsErr.resourceNotFound)])
    ⟨"s", SecretContentType.json, "b", "k", none, none, some [("b", "y")], none, none⟩
    (some ⟨"old", none, none, [("a", "x")], some "pol", []⟩)
    (Call.untagResource "s" ["a"], some AwsErr.resourceNotFound)
    (by decide) (by decide) (by decide)

theorem mem_ite_singleton {c : Prop} [Decidable c] {x p : TraceEntry}
    (hp : p ∈ (if c then [x] else ([] : List TraceEntry))) : p = x := by
  split at hp
  · simpa using hp
  · simp at hp

theorem tagRemovalTrace_not_region (props : ResourceProperties)
    (l : List (String × String)) :
    ∀ p ∈ tagRemovalTrace props l, isRegionCall p.1 = false := by
  intro p hp
  unfold tagRemovalTrace at hp
  rw [mem_ite_singleton hp]
  rfl

theorem tagAddTrace_not_region (props : ResourceProperties) :
    ∀ p ∈ tagAddTrace props, isRegionCall p.1 = false := by
  intro p hp
  unfold tagAddTrace at hp
  rw [mem_ite_singleton hp]
  rfl

theorem policyTrace_not_region (props : ResourceProperties) (old : Option String) :
    ∀ p ∈ policyTrace props old, isRegionCall p.1 = false := by
  intro p hp
  unfold policyTrace at hp
  cases hsp : props.SecretPolicy with
  | some q =>
    rw [hsp] at hp
    simp at hp
    rw [hp]
    rfl
  | none =>
    rw [hsp] at hp
    simp at hp
    rw [hp]
    rfl

/-- Claim C6: in a fault-free upsert, the replica regions removed are
exactly the existing region names minus the desired region names (compared
by name only); the removal call, when issued, strictly precedes the
addition call, and the addition call passes all desired regions without
skipping ones already present.  Every earlier trace entry is a non-region
call. -/
theorem upsert_region_reconciliation (body out : String) (props : ResourceProperties)
    (st : Store) :
    ∃ pre,
      (upsertSecret (okEnv body out) props st).trace =
        pre
        ++ (if (regionsToRemove props (storeRegionNames st)).length ≠ 0
            then [(Call.removeRegionsFromReplication props.SecretName
                    (regionsToRemove props (storeRegionNames st)), none)]
            else [])
        ++ (if (newReplicatRegions props).length ≠ 0
            then [(Call.replicateSecretToRegions props.SecretName
                    (newReplicatRegions props), none)]
            else [])
      ∧ ∀ p ∈ pre, isRegionCall p.1 = false := by
  cases st with
  | some rs0 =>
    rw [upsert_okEnv_some body out props rs0]
    refine ⟨[(Call.s3GetObject props.S3BucketName props.S3ObjectKey, none),
             (Call.describeSecret props.SecretName, none),
             (Call.updateSecret props.SecretName props.SecretDescription (jsTrim out)
               props.SecretKmsKeyArn, none)]
            ++ tagRemovalTrace props rs0.tags ++ tagAddTrace props
            ++ policyTrace props rs0.policy, ?_, ?_⟩
    · rfl
    · intro p hp
      rcases List.mem_append.mp hp with h1 | h1
      · rcases List.mem_append.mp h1 with h2 | h2
        · rcases List.mem_append.mp h2 with h3 | h3
          · simp at h3
            rcases h3 with h | h | h <;> rw [h] <;> rfl
          · exact tagRemovalTrace_not_region props rs0.tags p h3
        · exact tagAddTrace_not_region props p h2
      · exact policyTrace_not_region props rs0.policy p h1
  | none =>
    rw [upsert_okEnv_absent body out props]
    refine ⟨[(Call.s3GetObject props.S3BucketName props.S3ObjectKey, none),
             (Call.describeSecret props.SecretName, some AwsErr.resourceNotFound),
             (Call.createSecret props.SecretName props.SecretDescription (jsTrim out)
               props.SecretKmsKeyArn, none)]
            ++ tagAddTrace props ++ policyTrace props none, ?_, ?_⟩
    · simp [storeRegionNames, regionsToRemove, regionAddTrace, List.append_assoc]
    · intro p hp
      rcases List.mem_append.mp hp with h1 | h1
      · rcases List.mem_append.mp h1 with h2 | h2
        · simp at h2
          rcases h2 with h | h | h <;> rw [h] <;> rfl
        · exact tagAddTrace_not_region props p h2
      · exact policyTrace_not_region props none p h1

theorem upsert_region_reconciliation_witness :
    ∃ pre,
      (upsertSecret (okEnv "c" "p")
        ⟨"s", SecretContentType.json, "b", "k", none, none, none, none,
         some [⟨"ap-southeast-2", none⟩]⟩
        (some ⟨"old", none, none, [], none,
          [⟨"ap-southeast-2", none⟩, ⟨"us-east-1", none⟩]⟩)).trace =
        pre
        ++ (if (regionsToRemove
                ⟨"s", SecretContentType.json, "b", "k", none, none, none, none,
                 some [⟨"ap-southeast-2", none⟩]⟩
                (storeRegionNames (some ⟨"old", none, none, [], none,
                  [⟨"ap-southeast-2", none⟩, ⟨"us-east-1", none⟩]⟩))).length ≠ 0
            then [(Call.removeRegionsFromReplication "s"
                    (regionsToRemove
                      ⟨"s", SecretContentType.json, "b", "k", none, none, none, none,
                       some [⟨"ap-southeast-2", none⟩]⟩
                      (storeRegionNames (some ⟨"old", none, none, [], none,
                        [⟨"ap-southeast-2", none⟩, ⟨"us-east-1", none⟩]⟩))), none)]
            else [])
        ++ (if (newReplicatRegions
                ⟨"s", SecretContentType.json, "b", "k", none, none, none, none,
                 some [⟨"ap-southeast-2", none⟩]⟩).length ≠ 0
            then [(Call.replicateSecretToRegions "s"
                    (newReplicatRegions
                      ⟨"s", SecretContentType.json, "b", "k", none, none, none, none,
                       some [⟨"ap-southeast-2", none⟩]⟩), none)]
            else [])
      ∧ ∀ p ∈ pre, isRegionCall p.1 = false :=
  upsert_region_reconciliation "c" "p"
    ⟨"s", SecretContentType.json, "b", "k", none, none, none, none,
     some [⟨"ap-southeast-2", none⟩]⟩
    (some ⟨"old", none, none, [], none,
      [⟨"ap-southeast-2", none⟩, ⟨"us-east-1", none⟩]⟩)

/-- Claim C7: the upsert never reads the existing resource policy.  In a
fault-free run it succeeds; when a policy is desired it is put
unconditionally and ends up attached; when none is desired a clear is
attempted, whose resource-not-found response (no policy attached) is
treated as success; any other error from the clear call is propagated as
the failure of the whole upsert. -/
theorem upsert_policy_overwrite_or_clear (body out : String)
    (props : ResourceProperties) (st : Store) :
    ((upsertSecret (okEnv body out) props st).err = none) ∧
    (∀ q, props.SecretPolicy = some q →
      storePolicy (upsertSecret (okEnv body out) props st).store = some q ∧
      (Call.putResourcePolicy props.SecretName q, (none : Option AwsErr)) ∈
        (upsertSecret (okEnv body out) props st).trace) ∧
    (props.SecretPolicy = none →
      storePolicy (upsertSecret (okEnv body out) props st).store = none ∧
      (Call.deleteResourcePolicy props.SecretName,
        (match storePolicy st with
         | none => some AwsErr.resourceNotFound
         | some _ => none)) ∈ (upsertSecret (okEnv body out) props st).trace) ∧
    (∀ (env2 : Env) (q : TraceEntry) (m : String),
      q ∈ (upsertSecret env2 props st).trace →
      q.1 = Call.deleteResourcePolicy props.SecretName →
      q.2 = some (AwsErr.otherFailure m) →
      (upsertSecret env2 props st).err = some (UpdaterErr.aws (AwsErr.otherFailure m))) := by
  refine ⟨?_, ?_, ?_, ?_⟩
  · cases st with
    | none => rw [upsert_okEnv_absent body out props]
    | some rs0 => rw [upsert_okEnv_some body out props rs0]
  · intro q hq
    cases st with
    | none =>
      rw [upsert_okEnv_absent body out props]
      exact ⟨by simp [storePolicy, hq], by simp [policyTrace, hq]⟩
    | some rs0 =>
      rw [upsert_okEnv_some body out props rs0]
      exact ⟨by simp [storePolicy, hq], by simp [policyTrace, hq]⟩
  · intro hq
    cases st with
    | none =>
      rw [upsert_okEnv_absent body out props]
      exact ⟨by simp [storePolicy, hq], by simp [storePolicy, policyTrace, hq]⟩
    | some rs0 =>
      rw [upsert_okEnv_some body out props rs0]
      exact ⟨by simp [storePolicy, hq], by simp [storePolicy, policyTrace, hq]⟩
  · intro env2 q m hq hq1 hq2
    rcases upsert_trace_clean env2 props st q hq with hclean | ⟨e, init, h2, herr, htr, hcl⟩
    · obtain ⟨c, r⟩ := q
      dsimp only at hq1 hq2
      subst hq1
      subst hq2
      exact absurd hclean (by simp [cleanEntry])
    · rw [hq2] at h2
      have he : AwsErr.otherFailure m = e := by injection h2
      rw [← he] at herr
      exact herr

theorem upsert_policy_overwrite_or_clear_witness :
    storePolicy (upsertSecret (okEnv "c" "p")
      ⟨"s", SecretContentType.json, "b", "k", none, none, none, none, none⟩
      (some ⟨"old", none, none, [], none, []⟩)).store = none ∧
    (Call.deleteResourcePolicy "s", some AwsErr.resourceNotFound) ∈
      (upsertSecret (okEnv "c" "p")
        ⟨"s", SecretContentType.json, "b", "k", none, none, none, none, none⟩
        (some ⟨"old", none, none, [], none, []⟩)).trace := by
  have h := upsert_policy_overwrite_or_clear "c" "p"
    ⟨"s", SecretContentType.json, "b", "k", none, none, none, none, none⟩
    (some ⟨"old", none, none, [], none, []⟩)
  exact ⟨(h.2.2.1 rfl).1, (h.2.2.1 rfl).2⟩

/-- Claim C8: any non-empty stderr from the sops step, or a failure of the
exec call itself, makes decoding fail, and that failure aborts the upsert
with only the S3 read in the trace -- before any mutating call reaches the
remote secret store. -/
theorem decode_failure_aborts_before_mutation (body : String)
    (sopsRes : Except String (String × String)) (faults : List (Nat × AwsErr))
    (props : ResourceProperties) (st : Store) :
    (∀ out stderr, sopsRes = Except.ok (out, stderr) → stderr ≠ "" →
      decodeSops (mkEnv body sopsRes faults) body props.SecretType =
        Except.error (UpdaterErr.sopsFailed stderr) ∧
      upsertSecret (mkEnv body sopsRes faults) props st =
        ⟨some (UpdaterErr.sopsFailed stderr), st,
         [(Call.s3GetObject props.S3BucketName props.S3ObjectKey, none)]⟩ ∧
      ∀ p ∈ (upsertSecret (mkEnv body sopsRes faults) props st).trace,
        isMutatingCall p.1 = false) ∧
    (∀ msg, sopsRes = Except.error msg →
      upsertSecret (mkEnv body sopsRes faults) props st =
        ⟨some (UpdaterErr.execFailed msg), st,
         [(Call.s3GetObject props.S3BucketName props.S3ObjectKey, none)]⟩ ∧
      ∀ p ∈ (upsertSecret (mkEnv body sopsRes faults) props st).trace,
        isMutatingCall p.1 = false) := by
  constructor
  · intro out stderr hres hne
    subst hres
    have hdec : decodeSops (mkEnv body (Except.ok (out, stderr)) faults) body
        props.SecretType = Except.error (UpdaterErr.sopsFailed stderr) := by
      unfold decodeSops mkEnv
      dsimp only
      rw [if_neg hne]
    have hs3 : (mkEnv body (Except.ok (out, stderr)) faults).s3 props.S3BucketName
        props.S3ObjectKey = Except.ok body := rfl
    have hrun : upsertSecret (mkEnv body (Except.ok (out, stderr)) faults) props st =
        ⟨some (UpdaterErr.sopsFailed stderr), st,
         [(Call.s3GetObject props.S3BucketName props.S3ObjectKey, none)]⟩ := by
      simp only [upsertSecret, hs3, hdec]
    refine ⟨hdec, hrun, ?_⟩
    intro p hp
    rw [hrun] at hp
    simp at hp
    rw [hp]
    rfl
  · intro msg hres
    subst hres
    have hdec : decodeSops (mkEnv body (Except.error msg) faults) body props.SecretType
        = Except.error (UpdaterErr.execFailed msg) := rfl
    have hs3 : (mkEnv body (Except.error msg) faults).s3 props.S3BucketName
        props.S3ObjectKey = Except.ok body := rfl
    have hrun : upsertSecret (mkEnv body (Except.error msg) faults) props st =
        ⟨some (UpdaterErr.execFailed msg), st,
         [(Call.s3GetObject props.S3BucketName props.S3ObjectKey, none)]⟩ := by
      simp only [upsertSecret, hs3, hdec]
    refine ⟨hrun, ?_⟩
    intro p hp
    rw [hrun] at hp
    simp at hp
    rw [hp]
    rfl

theorem decode_failure_aborts_before_mutation_witness :
    upsertSecret (mkEnv "c" (Except.ok ("p", "warn")) [])
      ⟨"s", SecretContentType.json, "b", "k", none, none, none, none, none⟩
      (some ⟨"old", none, none, [], none, []⟩) =
      ⟨some (UpdaterErr.sopsFailed "warn"), some ⟨"old", none, none, [], none, []⟩,
       [(Call.s3GetObject "b" "k", none)]⟩ :=
  ((decode_failure_aborts_before_mutation "c" (Except.ok ("p", "warn")) []
    ⟨"s", SecretContentType.json, "b", "k", none, none, none, none, none⟩
    (some ⟨"old", none, none, [], none, []⟩)).1 "p" "warn" rfl (by decide)).2.1

/-- Claim C9: the value handed to the create or update call is exactly the
decoded plaintext with its leading and trailing JavaScript whitespace
removed, and nothing else: the plaintext splits as whitespace prefix,
the stored value unchanged, and whitespace suffix, and the stored value
neither starts nor ends with whitespace. -/
theorem upsert_writes_trimmed_plaintext (body out : String)
    (props : ResourceProperties) (st : Store) :
    ((match st with
      | some _ => (Call.updateSecret props.SecretName props.SecretDescription (jsTrim out)
          props.SecretKmsKeyArn, (none : Option AwsErr))
      | none => (Call.createSecret props.SecretName props.SecretDescription (jsTrim out)
          props.SecretKmsKeyArn, (none : Option AwsErr)))
      ∈ (upsertSecret (okEnv body out) props st).trace) ∧
    (storeValue (upsertSecret (okEnv body out) props st).store = some (jsTrim out)) ∧
    (∃ pre post, out.data = pre ++ (jsTrim out).data ++ post ∧
      (∀ c ∈ pre, isJsWhitespace c = true) ∧
      (∀ c ∈ post, isJsWhitespace c = true)) ∧
    (∀ c, (jsTrim out).data.head? = some c → isJsWhitespace c = false) ∧
    (∀ c, (jsTrim out).data.getLast? = some c → isJsWhitespace c = false) := by
  refine ⟨?_, ?_, ?_, ?_, ?_⟩
  · cases st with
    | none =>
      rw [upsert_okEnv_absent body out props]
      simp
    | some rs0 =>
      rw [upsert_okEnv_some body out props rs0]
      simp
  · cases st with
    | none =>
      rw [upsert_okEnv_absent body out props]
      rfl
    | some rs0 =>
      rw [upsert_okEnv_some body out props rs0]
      rfl
  · exact jsTrimList_decomposition out.data
  · intro c h
    exact jsTrimList_head out.data c h
  · intro c h
    exact jsTrimList_getLast out.data c h

theorem upsert_writes_trimmed_plaintext_witness :
    (storeValue (upsertSecret (okEnv "c" " p\n")
      ⟨"s", SecretContentType.json, "b", "k", none, none, none, none, none⟩ none).store
      = some (jsTrim " p\n")) ∧ jsTrim " p\n" = "p" := by
  constructor
  · exact (upsert_writes_trimmed_plaintext "c" " p\n"
      ⟨"s", SecretContentType.json, "b", "k", none, none, none, none, none⟩ none).2.1
  · decide

/-- Claim C10: an event whose RequestType is none of Create, Update or
Delete is rejected with the generic message Failed (the original unknown
event diagnostic is caught and replaced) and no remote call is made and
the store is untouched; for the three recognized types the entry point
returns the corresponding handler outcome unchanged (the synchronous
try/catch does not intercept the handler promise rejections). -/
theorem onEvent_dispatch (env : Env) (event : RawEvent) (st : Store) :
    (event.RequestType ≠ "Create" → event.RequestType ≠ "Update" →
      event.RequestType ≠ "Delete" →
      onEvent env event st = ⟨Except.error UpdaterErr.failed, st, []⟩) ∧
    (event.RequestType = "Create" →
      onEvent env event st = handleCreate env event.ResourceProperties st) ∧
    (event.RequestType = "Update" →
      onEvent env event st =
        handleUpdate env event.ResourceProperties event.PhysicalResourceId st) ∧
    (event.RequestType = "Delete" →
      onEvent env event st = handleDelete env event.PhysicalResourceId st) := by
  refine ⟨?_, ?_, ?_, ?_⟩
  · intro h1 h2 h3
    unfold onEvent
    rw [if_neg h1, if_neg h2, if_neg h3]
  · intro h
    unfold onEvent
    rw [if_pos h]
  · intro h
    have h1 : event.RequestType ≠ "Create" := by
      rw [h]
      decide
    unfold onEvent
    rw [if_neg h1, if_pos h]
  · intro h
    have h1 : event.RequestType ≠ "Create" := by
      rw [h]
      decide
    have h2 : event.RequestType ≠ "Update" := by
      rw [h]
      decide
    unfold onEvent
    rw [if_neg h1, if_neg h2, if_pos h]

theorem onEvent_dispatch_witness :
    onEvent (mkEnv "c" (Except.ok ("p", "")) [])
      ⟨"Boom", ⟨"s", SecretContentType.json, "b", "k", none, none, none, none, none⟩, "x"⟩
      none = ⟨Except.error UpdaterErr.failed, none, []⟩ :=
  (onEvent_dispatch (mkEnv "c" (Except.ok ("p", "")) [])
    ⟨"Boom", ⟨"s", SecretContentType.json, "b", "k", none, none, none, none, none⟩, "x"⟩
    none).1 (by decide) (by decide) (by decide)
